import Mathlib

/-!
# Verification of the l2met aggregation pipeline

A shallow embedding of the l2met source (Go) in Lean 4, together with
theorems checking the natural-language specification against it.

Modelling conventions:
* Go `float64` values are modelled as `ℚ` (exact arithmetic; the code's
  float constants `0.95`, `0.99` become the rationals `95/100`, `99/100`).
* Go methods that mutate a `*Bucket` become functions returning the new
  bucket; methods that both return a value and mutate return a pair
  `(value, new bucket)`.
* Go maps become association lists or functions into `Option`.
* Go's `panic` and Go errors become `Option`/`none`.
* Only the `Id` fields that the verified code reads are carried
  (`Resolution`/`ReadyAt` are never read by the functions embedded here).
-/

namespace L2met

/-- bucket.Id - identity under which measurements aggregate.
`Time` is carried directly as unix seconds (the code only ever reads
`Id.Time.Unix()`).  The Go field `Type` is spelled `type` here because
`Type` is reserved in Lean. -/
structure Id where
  Name : String
  Source : String
  Auth : String
  Units : String
  type : String
  Time : ℤ
  deriving DecidableEq

/-- bucket.Bucket - the aggregated state for one Id:
`Vals []float64` and `Sum float64` (the `sync.Mutex` field only
serializes access and carries no data). -/
structure Bucket where
  id : Id
  Vals : List ℚ
  Sum : ℚ
  deriving DecidableEq

/-- bucket.MetricAttrs. -/
structure MetricAttrs where
  Min : ℤ
  Units : String
  deriving DecidableEq

/-- bucket.Metric - the vendor-agnostic record emitted by a bucket.
Go pointer fields (`*float64`, `*int`) become `Option`. -/
structure Metric where
  Name : String
  Time : ℤ
  Val : Option ℚ
  Count : Option ℤ
  Sum : Option ℚ
  Max : Option ℚ
  Min : Option ℚ
  Source : String
  Auth : String
  Attr : Option MetricAttrs
  IsComplex : Bool
  deriving DecidableEq

/-- `func (b *Bucket) Reset()` : `b.Sum = 0; b.Vals = b.Vals[:0]`. -/
def Bucket.Reset (b : Bucket) : Bucket :=
  { b with Sum := 0, Vals := [] }

/-- `func (b *Bucket) Append(val float64)` :
`b.Sum += val; b.Vals = append(b.Vals, val)`. -/
def Bucket.Append (b : Bucket) (val : ℚ) : Bucket :=
  { b with Sum := b.Sum + val, Vals := b.Vals ++ [val] }

/-- `func (b *Bucket) Incr(val float64)` : `b.Sum += val`. -/
def Bucket.Incr (b : Bucket) (val : ℚ) : Bucket :=
  { b with Sum := b.Sum + val }

/-- `func (b *Bucket) Merge(other *Bucket)` :
`for _, v := range other.Vals { b.Append(v) }`.
Note that `other.Sum` is never read. -/
def Bucket.Merge (b other : Bucket) : Bucket :=
  other.Vals.foldl Bucket.Append b

/-- `func (b *Bucket) Count() int` : `len(b.Vals)`. -/
def Bucket.Count (b : Bucket) : ℕ :=
  b.Vals.length

/-- `func (b *Bucket) Mean() float64`. -/
def Bucket.Mean (b : Bucket) : ℚ :=
  if b.Count = 0 then 0 else b.Sum / (b.Count : ℚ)

/-- `func (b *Bucket) Sort()` :
`if !sort.Float64sAreSorted(b.Vals) { sort.Float64s(b.Vals) }` -
sorts `Vals` ascending in place (the sortedness test only skips
re-sorting an already sorted slice).  `sort.Float64s` produces the
ascending reordering, modelled with `List.insertionSort`. -/
def Bucket.Sort (b : Bucket) : Bucket :=
  if b.Vals.Sorted (· ≤ ·) then b
  else { b with Vals := b.Vals.insertionSort (· ≤ ·) }

/-- `Median`'s index expression `int(math.Ceil(float64(b.Count() / 2)))`.
`b.Count() / 2` is Go integer division, so the ceiling is applied to a
value that is already an integer. -/
def medianPos (n : ℕ) : ℕ :=
  (⌈((n / 2 : ℕ) : ℚ)⌉).toNat

/-- `Perc95`'s index expression `int(math.Floor(float64(b.Count()) * 0.95))`. -/
def perc95Pos (n : ℕ) : ℕ :=
  (⌊(n : ℚ) * (95 / 100)⌋).toNat

/-- `Perc99`'s index expression `int(math.Floor(float64(b.Count()) * 0.99))`. -/
def perc99Pos (n : ℕ) : ℕ :=
  (⌊(n : ℚ) * (99 / 100)⌋).toNat

/-- `func (b *Bucket) Min() float64` : guard `Count() == 0`, sort,
return `b.Vals[0]`.  Returns the value and the (sorted) post-state. -/
def Bucket.Min (b : Bucket) : ℚ × Bucket :=
  if b.Count = 0 then (0, b)
  else
    let s := b.Sort
    (s.Vals.getD 0 0, s)

/-- `func (b *Bucket) Median() float64`. -/
def Bucket.Median (b : Bucket) : ℚ × Bucket :=
  if b.Count = 0 then (0, b)
  else
    let s := b.Sort
    (s.Vals.getD (medianPos s.Count) 0, s)

/-- `func (b *Bucket) Perc95() float64`. -/
def Bucket.Perc95 (b : Bucket) : ℚ × Bucket :=
  if b.Count = 0 then (0, b)
  else
    let s := b.Sort
    (s.Vals.getD (perc95Pos s.Count) 0, s)

/-- `func (b *Bucket) Perc99() float64`. -/
def Bucket.Perc99 (b : Bucket) : ℚ × Bucket :=
  if b.Count = 0 then (0, b)
  else
    let s := b.Sort
    (s.Vals.getD (perc99Pos s.Count) 0, s)

/-- `func (b *Bucket) Max() float64` : guard, sort, `b.Vals[b.Count()-1]`. -/
def Bucket.Max (b : Bucket) : ℚ × Bucket :=
  if b.Count = 0 then (0, b)
  else
    let s := b.Sort
    (s.Vals.getD (s.Count - 1) 0, s)

/-- `func (b *Bucket) Last() float64` : guard, `b.Vals[b.Count()-1]`,
no sorting. -/
def Bucket.Last (b : Bucket) : ℚ × Bucket :=
  if b.Count = 0 then (0, b)
  else (b.Vals.getD (b.Count - 1) 0, b)

/-- `func (b *Bucket) ComplexMetric() *Metric` : evaluates
`b.Min()`, `b.Max()`, `b.Count()`, `b.Sum` in that order (the first two
sort the bucket) and packs them into one complex Metric. -/
def Bucket.ComplexMetric (b : Bucket) : L2met.Metric × Bucket :=
  let r1 := b.Min
  let r2 := r1.2.Max
  ({ Attr := some { Min := 0, Units := b.id.Units },
     Name := b.id.Name,
     Source := b.id.Source,
     Time := b.id.Time,
     Auth := b.id.Auth,
     Min := some r1.1,
     Max := some r2.1,
     Sum := some r2.2.Sum,
     Count := some (r2.2.Count : ℤ),
     Val := none,
     IsComplex := true }, r2.2)

/-- `func (b *Bucket) Metric(suffix string, val float64) *Metric` :
a single-value Metric named `b.Id.Name + suffix`. -/
def Bucket.Metric (b : Bucket) (suffix : String) (val : ℚ) : L2met.Metric :=
  { Attr := some { Min := 0, Units := b.id.Units },
    Name := b.id.Name ++ suffix,
    Source := b.id.Source,
    Time := b.id.Time,
    Auth := b.id.Auth,
    Val := some val,
    Count := none,
    Sum := none,
    Max := none,
    Min := none,
    IsComplex := false }

/-- `func (b *Bucket) EmitMeasurements() []*Metric` :
`[ComplexMetric, Metric(".median", Median), Metric(".perc95", Perc95),
Metric(".perc99", Perc99)]`, threading the in-place sorting through the
statistical calls (`Bucket.Metric` reads only the immutable `Id`). -/
def Bucket.EmitMeasurements (b : Bucket) : List L2met.Metric × Bucket :=
  let r0 := b.ComplexMetric
  let r1 := r0.2.Median
  let r2 := r1.2.Perc95
  let r3 := r2.2.Perc99
  ([r0.1,
    b.Metric ".median" r1.1,
    b.Metric ".perc95" r2.1,
    b.Metric ".perc99" r3.1], r3.2)

/-- `func (b *Bucket) EmitCounters() []*Metric` : `[Metric("", b.Sum)]`. -/
def Bucket.EmitCounters (b : Bucket) : List L2met.Metric × Bucket :=
  ([b.Metric "" b.Sum], b)

/-- `func (b *Bucket) EmitSamples() []*Metric` : `[Metric("", b.Last())]`. -/
def Bucket.EmitSamples (b : Bucket) : List L2met.Metric × Bucket :=
  let r := b.Last
  ([b.Metric "" r.1], r.2)

/-- `func (b *Bucket) Metrics() []*Metric` : dispatch on `b.Id.Type`
(`switch` over `"measurement" | "counter" | "sample"`); the `default`
branch panics, modelled as `none`. -/
def Bucket.Metrics (b : Bucket) : Option (List L2met.Metric × Bucket) :=
  if b.id.type = "measurement" then some b.EmitMeasurements
  else if b.id.type = "counter" then some b.EmitCounters
  else if b.id.type = "sample" then some b.EmitSamples
  else none

/-! ## Parser (package parser)

Only the per-tuple emission step is embedded: given the `Id` produced by
`buildId` and one tuple, the handler either emits a bucket or nothing.
A tuple is carried as its name (`t.Name()`) and the result of
`t.Float64()` (`none` = parse error). -/

/-- One `key=value` tuple of a log frame: `t.Name()` and the result of
`t.Float64()`. -/
structure Tuple where
  name : String
  float64 : Option ℚ

/-- `strings.HasPrefix(s, pre)`, expressed over the character data so
that it evaluates inside the kernel. -/
def hasPre (pre s : String) : Bool :=
  pre.data.isPrefixOf s.data

/-- `func (p *parser) handleCounters(t *tuple) error` :
if the name has the `count#` prefix, set `id.Type = "counter"`, parse
the value and emit `&bucket.Bucket{Id: id, Vals: []float64{val}}`.
The Go struct literal omits `Sum`, which is therefore its zero value 0. -/
def handleCounters (id : Id) (t : Tuple) : Option Bucket :=
  if hasPre "count#" t.name then
    match t.float64 with
    | none => none
    | some val => some { id := { id with type := "counter" }, Vals := [val], Sum := 0 }
  else none

/-- `func (p *parser) handleSamples(t *tuple) error` : same shape for
the `sample#` prefix and `id.Type = "sample"`. -/
def handleSamples (id : Id) (t : Tuple) : Option Bucket :=
  if hasPre "sample#" t.name then
    match t.float64 with
    | none => none
    | some val => some { id := { id with type := "sample" }, Vals := [val], Sum := 0 }
  else none

/-- `func (p *parser) handlMeasurements(t *tuple) error` (name as in the
source): same shape for the `measure#` prefix and
`id.Type = "measurement"`. -/
def handlMeasurements (id : Id) (t : Tuple) : Option Bucket :=
  if hasPre "measure#" t.name then
    match t.float64 with
    | none => none
    | some val => some { id := { id with type := "measurement" }, Vals := [val], Sum := 0 }
  else none

/-- `func (p *parser) handleLegacyMeasurements(t *tuple) error` :
same shape for the `measure.` prefix. -/
def handleLegacyMeasurements (id : Id) (t : Tuple) : Option Bucket :=
  if hasPre "measure." t.name then
    match t.float64 with
    | none => none
    | some val => some { id := { id with type := "measurement" }, Vals := [val], Sum := 0 }
  else none

/-! ## Receiver (package receiver) -/

/-- `func (r *Receiver) addRegister(b *bucket.Bucket)` : under the
register lock, insert `b` when its `Id` is absent from the map,
otherwise merge `b` into the existing entry.  The register map
`map[bucket.Id]*bucket.Bucket` is modelled as a function
`Id → Option Bucket`. -/
def addRegister (reg : Id → Option Bucket) (b : Bucket) : Id → Option Bucket :=
  fun k =>
    if k = b.id then
      match reg b.id with
      | none => some b
      | some existing => some (existing.Merge b)
    else reg k

/-- The empty register (`make(map[bucket.Id]*bucket.Bucket)`). -/
def emptyRegister : Id → Option Bucket := fun _ => none

/-! ## DataDog outlet (package outlet)

`postWithRetry` loops `for i := 0; i <= l.numRetries; i++`, posting on
each iteration; a failed `post` at `i == numRetries` returns that error,
an earlier failure continues the loop, a success returns `nil`.
The outcome of each `post` call is abstracted as
`attempt : ℕ → Option String` (`none` = success, `some err` = the error
of that attempt).  The embedding returns the number of `post` calls made
together with the final result. -/

/-- The loop body of `postWithRetry` from index `i`, with the fuel
argument fixed to `numRetries + 1 - i` by the caller; exhausting the
fuel corresponds to falling out of the `for` loop
(`return errors.New("Unable to post.")`, unreachable in the source). -/
def retryFrom (attempt : ℕ → Option String) (numRetries : ℕ) (i : ℕ) :
    ℕ → ℕ × Option String
  | 0 => (0, some "Unable to post.")
  | fuel + 1 =>
    match attempt i with
    | none => (1, none)
    | some e =>
      if i = numRetries then (1, some e)
      else
        let r := retryFrom attempt numRetries (i + 1) fuel
        (r.1 + 1, r.2)

/-- `func (l *DataDogOutlet) postWithRetry(api_key string, body []byte) error`. -/
def postWithRetry (attempt : ℕ → Option String) (numRetries : ℕ) :
    ℕ × Option String :=
  retryFrom attempt numRetries 0 (numRetries + 1)

/-- The drop accounting of `func (l *DataDogOutlet) outlet()` : for each
batch (whose successive `post` outcomes are its `attempt` function), a
terminal `postWithRetry` error measures `outlet.drop = 1` and the loop
continues with the next batch.  Returns the total number of dropped
batches. -/
def outletDropCount (numRetries : ℕ) : List (ℕ → Option String) → ℕ
  | [] => 0
  | attempt :: rest =>
    (match (postWithRetry attempt numRetries).2 with
     | some _ => 1
     | none => 0) + outletDropCount numRetries rest

/-! ## Group-by-tenant stage (`groupByUser`)

The map `m : map[string][]*metrics.DataDogMetric` is an association
list with unique keys; the two `select` branches (a payload arriving on
`l.conversions`, the 200 ms tick) become two step functions, each
returning the new map and the batches sent to `l.outbox`. -/

/-- metrics.DataDogMetric (src/unnamed/part_004's sibling metrics
package); only `Auth` is read by `groupByUser`. -/
structure DataDogMetric where
  Metric : String
  Host : String
  Tags : List String
  type : String
  Auth : String
  Points : List (ℚ × ℚ)
  deriving DecidableEq

/-- Association-list lookup for the `m[usr]` read. -/
def findEntry : List (String × List DataDogMetric) → String →
    Option (List DataDogMetric)
  | [], _ => none
  | (k, v) :: rest, usr => if k = usr then some v else findEntry rest usr

/-- Association-list update for the `m[usr] = v` write. -/
def setEntry : List (String × List DataDogMetric) → String →
    List DataDogMetric → List (String × List DataDogMetric)
  | [], usr, v => [(usr, v)]
  | (k, w) :: rest, usr, v =>
    if k = usr then (usr, v) :: rest else (k, w) :: setEntry rest usr v

/-- Association-list removal for `delete(m, usr)`. -/
def eraseEntry : List (String × List DataDogMetric) → String →
    List (String × List DataDogMetric)
  | [], _ => []
  | (k, v) :: rest, usr =>
    if k = usr then eraseEntry rest usr else (k, v) :: eraseEntry rest usr

/-- The `case payload := <-l.conversions` branch of `groupByUser`,
parameterized by the batch cap (the source fixes it to 300 via
`make([]*metrics.DataDogMetric, 1, 300)` and `len(m[usr]) == cap(m[usr])`):
a new tenant starts a one-element slice, an existing one is appended to;
a slice reaching the cap is emitted to the outbox and its entry deleted. -/
def groupByUserArrive (cap : ℕ) (m : List (String × List DataDogMetric))
    (payload : DataDogMetric) :
    List (String × List DataDogMetric) × List (List DataDogMetric) :=
  let usr := payload.Auth
  let v := match findEntry m usr with
    | none => [payload]
    | some old => old ++ [payload]
  if v.length = cap then (eraseEntry m usr, [v])
  else (setEntry m usr v, [])

/-- The `case <-ticker` branch of `groupByUser` : every entry with
`len(v) > 0` is emitted to the outbox and every entry is deleted. -/
def groupByUserTick (m : List (String × List DataDogMetric)) :
    List (String × List DataDogMetric) × List (List DataDogMetric) :=
  ([], (m.filter fun e => 0 < e.2.length).map (·.2))

/-- One `select` iteration of `groupByUser`. -/
inductive GroupEvent where
  | arrival (payload : DataDogMetric)
  | tick
  deriving DecidableEq

/-- One step of the `groupByUser` loop. -/
def groupByUserStep (cap : ℕ) (m : List (String × List DataDogMetric)) :
    GroupEvent → List (String × List DataDogMetric) × List (List DataDogMetric)
  | .arrival payload => groupByUserArrive cap m payload
  | .tick => groupByUserTick m

/-- Running `groupByUser` over a sequence of events, collecting the
batches emitted to the outbox in order. -/
def groupByUserRun (cap : ℕ) (m : List (String × List DataDogMetric)) :
    List GroupEvent →
    List (String × List DataDogMetric) × List (List DataDogMetric)
  | [] => (m, [])
  | e :: es =>
    let r := groupByUserStep cap m e
    let rest := groupByUserRun cap r.1 es
    (rest.1, r.2 ++ rest.2)

/-! ## Basic lemmas about the embedding -/

theorem foldl_Append_Vals (V : List ℚ) :
    ∀ b : Bucket, (V.foldl Bucket.Append b).Vals = b.Vals ++ V := by
  induction V with
  | nil => intro b; simp
  | cons v t ih =>
    intro b
    simp [List.foldl_cons, ih, Bucket.Append]

theorem foldl_Append_Sum (V : List ℚ) :
    ∀ b : Bucket, (V.foldl Bucket.Append b).Sum = b.Sum + V.sum := by
  induction V with
  | nil => intro b; simp
  | cons v t ih =>
    intro b
    simp [List.foldl_cons, ih, Bucket.Append]
    ring

theorem foldl_Append_id (V : List ℚ) :
    ∀ b : Bucket, (V.foldl Bucket.Append b).id = b.id := by
  induction V with
  | nil => intro b; rfl
  | cons v t ih =>
    intro b
    simp [List.foldl_cons, ih, Bucket.Append]

theorem Merge_Vals (b o : Bucket) : (b.Merge o).Vals = b.Vals ++ o.Vals :=
  foldl_Append_Vals o.Vals b

theorem Merge_Sum (b o : Bucket) : (b.Merge o).Sum = b.Sum + o.Vals.sum :=
  foldl_Append_Sum o.Vals b

theorem Merge_id (b o : Bucket) : (b.Merge o).id = b.id :=
  foldl_Append_id o.Vals b

theorem Sort_of_sorted {b : Bucket} (h : b.Vals.Sorted (· ≤ ·)) : b.Sort = b := by
  unfold Bucket.Sort
  rw [if_pos h]

theorem Sort_Vals (b : Bucket) : (b.Sort).Vals = b.Vals.insertionSort (· ≤ ·) := by
  unfold Bucket.Sort
  split
  · exact (List.Sorted.insertionSort_eq (by assumption)).symm
  · rfl

theorem Sort_Sum (b : Bucket) : (b.Sort).Sum = b.Sum := by
  unfold Bucket.Sort
  split <;> rfl

theorem Sort_id (b : Bucket) : (b.Sort).id = b.id := by
  unfold Bucket.Sort
  split <;> rfl

theorem Sort_sorted (b : Bucket) : (b.Sort).Vals.Sorted (· ≤ ·) := by
  rw [Sort_Vals]
  exact List.sorted_insertionSort _ _

theorem Sort_perm (b : Bucket) : List.Perm (b.Sort).Vals b.Vals := by
  rw [Sort_Vals]
  exact List.perm_insertionSort _ _

theorem Sort_Count (b : Bucket) : (b.Sort).Count = b.Count :=
  (Sort_perm b).length_eq

theorem Sort_Sort (b : Bucket) : (b.Sort).Sort = b.Sort :=
  Sort_of_sorted (Sort_sorted b)

theorem insertionSort_idem (l : List ℚ) :
    (l.insertionSort (· ≤ ·)).insertionSort (· ≤ ·) = l.insertionSort (· ≤ ·) :=
  List.Sorted.insertionSort_eq (List.sorted_insertionSort _ _)

theorem medianPos_eq (n : ℕ) : medianPos n = n / 2 := by
  simp [medianPos]
  omega

theorem perc95Pos_lt {n : ℕ} (h : 1 ≤ n) : perc95Pos n < n := by
  unfold perc95Pos
  rw [Int.toNat_lt' (by omega : n ≠ 0)]
  apply Int.floor_lt.mpr
  push_cast
  have hn : (0 : ℚ) < n := by exact_mod_cast Nat.lt_of_lt_of_le Nat.zero_lt_one h
  nlinarith

theorem perc99Pos_lt {n : ℕ} (h : 1 ≤ n) : perc99Pos n < n := by
  unfold perc99Pos
  rw [Int.toNat_lt' (by omega : n ≠ 0)]
  apply Int.floor_lt.mpr
  push_cast
  have hn : (0 : ℚ) < n := by exact_mod_cast Nat.lt_of_lt_of_le Nat.zero_lt_one h
  nlinarith

theorem sorted_getD_zero_le {l : List ℚ} (hs : l.Sorted (· ≤ ·)) {x : ℚ}
    (hx : x ∈ l) : l.getD 0 0 ≤ x := by
  obtain ⟨i, hi⟩ := List.mem_iff_get.mp hx
  have hlen : 0 < l.length := Nat.lt_of_le_of_lt (Nat.zero_le _) i.isLt
  rw [List.getD_eq_get _ _ hlen, ← hi]
  exact hs.rel_get_of_le (by simp [Fin.le_def])

theorem sorted_le_getD_last {l : List ℚ} (hs : l.Sorted (· ≤ ·)) {x : ℚ}
    (hx : x ∈ l) : x ≤ l.getD (l.length - 1) 0 := by
  obtain ⟨i, hi⟩ := List.mem_iff_get.mp hx
  have hlen : l.length - 1 < l.length :=
    Nat.sub_lt (Nat.lt_of_le_of_lt (Nat.zero_le _) i.isLt) Nat.zero_lt_one
  rw [List.getD_eq_get _ _ hlen, ← hi]
  exact hs.rel_get_of_le (by simp [Fin.le_def]; omega)

theorem getD_zero_mem {l : List ℚ} (h : l ≠ []) : l.getD 0 0 ∈ l := by
  have hlen : 0 < l.length := List.length_pos.mpr h
  rw [List.getD_eq_get _ _ hlen]
  exact List.get_mem _ _ _

theorem getD_last_mem {l : List ℚ} (h : l ≠ []) : l.getD (l.length - 1) 0 ∈ l := by
  have hlen : l.length - 1 < l.length :=
    Nat.sub_lt (List.length_pos.mpr h) Nat.zero_lt_one
  rw [List.getD_eq_get _ _ hlen]
  exact List.get_mem _ _ _

theorem getD_last_eq_getLast {l : List ℚ} (h : l ≠ []) :
    l.getD (l.length - 1) 0 = l.getLast h := by
  have hlen : l.length - 1 < l.length :=
    Nat.sub_lt (List.length_pos.mpr h) Nat.zero_lt_one
  rw [List.getD_eq_get _ _ hlen, List.getLast_eq_get]

theorem Min_snd (b : Bucket) : (b.Min).2 = if b.Count = 0 then b else b.Sort := by
  unfold Bucket.Min
  split <;> rfl

theorem Median_snd (b : Bucket) : (b.Median).2 = if b.Count = 0 then b else b.Sort := by
  unfold Bucket.Median
  split <;> rfl

theorem Perc95_snd (b : Bucket) : (b.Perc95).2 = if b.Count = 0 then b else b.Sort := by
  unfold Bucket.Perc95
  split <;> rfl

theorem Perc99_snd (b : Bucket) : (b.Perc99).2 = if b.Count = 0 then b else b.Sort := by
  unfold Bucket.Perc99
  split <;> rfl

theorem Max_snd (b : Bucket) : (b.Max).2 = if b.Count = 0 then b else b.Sort := by
  unfold Bucket.Max
  split <;> rfl

theorem Last_snd (b : Bucket) : (b.Last).2 = b := by
  unfold Bucket.Last
  split <;> rfl

theorem Min_fst (b : Bucket) :
    (b.Min).1 = if b.Count = 0 then 0
      else (b.Vals.insertionSort (· ≤ ·)).getD 0 0 := by
  unfold Bucket.Min
  split
  · rfl
  · simp [Sort_Vals]

theorem Median_fst (b : Bucket) :
    (b.Median).1 = if b.Count = 0 then 0
      else (b.Vals.insertionSort (· ≤ ·)).getD (medianPos b.Count) 0 := by
  unfold Bucket.Median
  split
  · rfl
  · simp [Sort_Vals, Sort_Count]

theorem Perc95_fst (b : Bucket) :
    (b.Perc95).1 = if b.Count = 0 then 0
      else (b.Vals.insertionSort (· ≤ ·)).getD (perc95Pos b.Count) 0 := by
  unfold Bucket.Perc95
  split
  · rfl
  · simp [Sort_Vals, Sort_Count]

theorem Perc99_fst (b : Bucket) :
    (b.Perc99).1 = if b.Count = 0 then 0
      else (b.Vals.insertionSort (· ≤ ·)).getD (perc99Pos b.Count) 0 := by
  unfold Bucket.Perc99
  split
  · rfl
  · simp [Sort_Vals, Sort_Count]

theorem Max_fst (b : Bucket) :
    (b.Max).1 = if b.Count = 0 then 0
      else (b.Vals.insertionSort (· ≤ ·)).getD (b.Count - 1) 0 := by
  unfold Bucket.Max
  split
  · rfl
  · simp [Sort_Vals, Sort_Count]

/-! ## Fixtures and spec-side definitions -/

/-- A bucket built from the empty bucket by `Append`ing each value of
`V` in order (`Vals` empty, `Sum` zero before the first call). -/
def buildBucket (i : Id) (V : List ℚ) : Bucket :=
  V.foldl Bucket.Append { id := i, Vals := [], Sum := 0 }

/-- A concrete measurement identity used by the witnesses below. -/
def idEx : Id :=
  { Name := "db.latency", Source := "", Auth := "X", Units := "ms",
    type := "measurement", Time := 0 }

/-- A three-sample measurement bucket. -/
def bEx3 : Bucket :=
  { id := idEx, Vals := [1, 2, 3], Sum := 6 }

/-- The ten-sample measurement bucket of the spec's complex-emission
scenario. -/
def bEx10 : Bucket :=
  { id := idEx, Vals := [1, 2, 3, 4, 5, 6, 7, 8, 9, 10], Sum := 55 }

/-- The median position claimed by the spec: `⌈n/2⌉` with real division
(unlike the source's `int(math.Ceil(float64(n / 2)))`, whose division is
integral).  Stated from the spec's words for comparison with
`medianPos`. -/
def specMedianPos (n : ℕ) : ℕ :=
  (⌈(n : ℚ) / 2⌉).toNat

theorem buildBucket_Vals (i : Id) (V : List ℚ) : (buildBucket i V).Vals = V := by
  simpa using foldl_Append_Vals V { id := i, Vals := [], Sum := 0 }

theorem buildBucket_Sum (i : Id) (V : List ℚ) : (buildBucket i V).Sum = V.sum := by
  simpa using foldl_Append_Sum V { id := i, Vals := [], Sum := 0 }

/-! ## C1 -/

/-- C1: a bucket built by `N` `Append`s with values `V` from the empty
bucket has `Sum = Σ V`, `Count = |V|`, and (for non-empty `V`) `Min()`
and `Max()` return the minimum and the maximum of `V`. -/
theorem c1_append_stats (i : Id) (V : List ℚ) :
    (buildBucket i V).Sum = V.sum ∧
    (buildBucket i V).Count = V.length ∧
    (V ≠ [] →
      (((buildBucket i V).Min).1 ∈ V ∧ ∀ x ∈ V, ((buildBucket i V).Min).1 ≤ x) ∧
      (((buildBucket i V).Max).1 ∈ V ∧ ∀ x ∈ V, x ≤ ((buildBucket i V).Max).1)) := by
  have hv : (buildBucket i V).Vals = V := buildBucket_Vals i V
  refine ⟨buildBucket_Sum i V, by simp [Bucket.Count, hv], ?_⟩
  intro hne
  have hcount : ¬(buildBucket i V).Count = 0 := by
    simp only [Bucket.Count, hv]
    simpa [List.length_eq_zero] using hne
  have hsorted : (V.insertionSort (· ≤ ·)).Sorted (· ≤ ·) :=
    List.sorted_insertionSort _ _
  have hperm : List.Perm (V.insertionSort (· ≤ ·)) V :=
    List.perm_insertionSort _ _
  have hnil : V.insertionSort (· ≤ ·) ≠ [] := by
    intro h0
    rw [h0] at hperm
    exact hne (hperm.nil_eq).symm
  have hlen : (V.insertionSort (· ≤ ·)).length = (buildBucket i V).Count := by
    rw [hperm.length_eq, Bucket.Count, hv]
  constructor
  · constructor
    · rw [Min_fst, if_neg hcount, hv]
      exact hperm.mem_iff.mp (getD_zero_mem hnil)
    · intro x hx
      rw [Min_fst, if_neg hcount, hv]
      exact sorted_getD_zero_le hsorted (hperm.mem_iff.mpr hx)
  · constructor
    · rw [Max_fst, if_neg hcount, hv, ← hlen]
      exact hperm.mem_iff.mp (getD_last_mem hnil)
    · intro x hx
      rw [Max_fst, if_neg hcount, hv, ← hlen]
      exact sorted_le_getD_last hsorted (hperm.mem_iff.mpr hx)

/-- Witness for C1 at `V = [3, 1, 2]`. -/
theorem c1_append_stats_witness :
    ([3, 1, 2] : List ℚ) ≠ [] ∧
    ((((buildBucket idEx [3, 1, 2]).Min).1 ∈ ([3, 1, 2] : List ℚ) ∧
        ∀ x ∈ ([3, 1, 2] : List ℚ), ((buildBucket idEx [3, 1, 2]).Min).1 ≤ x) ∧
      (((buildBucket idEx [3, 1, 2]).Max).1 ∈ ([3, 1, 2] : List ℚ) ∧
        ∀ x ∈ ([3, 1, 2] : List ℚ), x ≤ ((buildBucket idEx [3, 1, 2]).Max).1)) :=
  ⟨by decide, (c1_append_stats idEx [3, 1, 2]).2.2 (by decide)⟩

/-! ## C2 -/

/-- C2, counterexample: on `Vals = [1, 2, 3]` the source's `Median()`
returns the element at position `⌊n/2⌋ = 1` (the value `2`), not the
element at the spec's position `⌈n/2⌉ = 2` (the value `3`): the `math.Ceil`
in the source is applied to the already-integral `b.Count() / 2`. -/
theorem c2_median_counterexample :
    (bEx3.Median).1 = 2 ∧
    specMedianPos bEx3.Count = 2 ∧
    (bEx3.Vals.insertionSort (· ≤ ·)).getD (specMedianPos bEx3.Count) 0 = 3 ∧
    (bEx3.Median).1 ≠
      (bEx3.Vals.insertionSort (· ≤ ·)).getD (specMedianPos bEx3.Count) 0 := by
  have hcount : bEx3.Count = 3 := by decide
  have hspec : specMedianPos bEx3.Count = 2 := by
    rw [hcount]
    unfold specMedianPos
    rw [show (⌈((3 : ℕ) : ℚ) / 2⌉ = 2) by rw [Int.ceil_eq_iff] <;> norm_num]
    rfl
  have hmed : (bEx3.Median).1 = 2 := by
    rw [Median_fst, if_neg (by decide), hcount, medianPos_eq]
    decide
  refine ⟨hmed, hspec, ?_, ?_⟩
  · rw [hspec]
    decide
  · rw [hspec, hmed]
    decide

/-- C2 as amended: for a bucket with `n = Count ≥ 1` and `V` its sorted
`Vals`, `Median()` returns `V[⌊n/2⌋]` (not `V[⌈n/2⌉]`), `Perc95()`
returns `V[⌊0.95·n⌋]` and `Perc99()` returns `V[⌊0.99·n⌋]` - positional
selection with no interpolation, the positions written here as
`Nat.floor` of the exact rational products. -/
theorem c2_positional_stats (b : Bucket) (h : 1 ≤ b.Count) :
    (b.Median).1 = (b.Vals.insertionSort (· ≤ ·)).getD (⌊(b.Count : ℚ) / 2⌋₊) 0 ∧
    (b.Perc95).1 = (b.Vals.insertionSort (· ≤ ·)).getD (⌊(b.Count : ℚ) * (95 / 100)⌋₊) 0 ∧
    (b.Perc99).1 = (b.Vals.insertionSort (· ≤ ·)).getD (⌊(b.Count : ℚ) * (99 / 100)⌋₊) 0 := by
  have hcount : ¬b.Count = 0 := by omega
  refine ⟨?_, ?_, ?_⟩
  · rw [Median_fst, if_neg hcount, medianPos_eq]
    have : ⌊(b.Count : ℚ) / 2⌋₊ = b.Count / 2 := by
      rw [show ((2 : ℚ) = ((2 : ℕ) : ℚ)) by norm_num, Nat.floor_div_nat,
        Nat.floor_natCast]
    rw [this]
  · rw [Perc95_fst, if_neg hcount]
    rw [show perc95Pos b.Count = ⌊(b.Count : ℚ) * (95 / 100)⌋₊ from
      Int.floor_toNat _]
  · rw [Perc99_fst, if_neg hcount]
    rw [show perc99Pos b.Count = ⌊(b.Count : ℚ) * (99 / 100)⌋₊ from
      Int.floor_toNat _]

/-- Witness for the amended C2 at the three-sample bucket. -/
theorem c2_positional_stats_witness :
    1 ≤ bEx3.Count ∧
    (bEx3.Median).1 = (bEx3.Vals.insertionSort (· ≤ ·)).getD (⌊(bEx3.Count : ℚ) / 2⌋₊) 0 :=
  ⟨by decide, (c2_positional_stats bEx3 (by decide)).1⟩

/-! ## C9 -/

/-- C9: `b.Merge(o)` appends `o.Vals` to `b.Vals` and adds `Σ o.Vals`
to `b.Sum`; `o.Sum` is never read, so a counter-style `o` with empty
`Vals` contributes nothing regardless of its `Sum`. -/
theorem c9_merge_frame (b o : Bucket) :
    (b.Merge o).Vals = b.Vals ++ o.Vals ∧
    (b.Merge o).Sum = b.Sum + o.Vals.sum ∧
    (b.Merge o).id = b.id ∧
    (∀ s : ℚ, b.Merge { o with Sum := s } = b.Merge o) ∧
    (o.Vals = [] → b.Merge o = b) := by
  refine ⟨Merge_Vals b o, Merge_Sum b o, Merge_id b o, fun s => rfl, ?_⟩
  intro h
  unfold Bucket.Merge
  rw [h]
  rfl

/-- Witness for C9: a counter-style bucket with `Vals = []`, `Sum = 5`
merged into `bEx3` leaves `bEx3` unchanged. -/
theorem c9_merge_frame_witness :
    ({ id := idEx, Vals := [], Sum := 5 } : Bucket).Vals = [] ∧
    bEx3.Merge { id := idEx, Vals := [], Sum := 5 } = bEx3 :=
  ⟨rfl, (c9_merge_frame bEx3 { id := idEx, Vals := [], Sum := 5 }).2.2.2.2 rfl⟩

/-! ## C10 -/

/-- The frame effect C10 asserts for one statistics call: the post-state
keeps `Sum`, `id` and the multiset of `Vals`, its `Vals` are sorted
ascending, and a subsequent `Last()` returns the maximum of `Vals`
(so no longer the most recently appended value). -/
def SortEffect (b : Bucket) (r : ℚ × Bucket) : Prop :=
  r.2.Sum = b.Sum ∧ r.2.id = b.id ∧ List.Perm r.2.Vals b.Vals ∧
  r.2.Vals.Sorted (· ≤ ·) ∧
  (b.Vals ≠ [] → (r.2.Last).1 ∈ b.Vals ∧ ∀ x ∈ b.Vals, x ≤ (r.2.Last).1)

theorem sortEffect_of_snd (b : Bucket) (r : ℚ × Bucket)
    (h : r.2 = if b.Count = 0 then b else b.Sort) : SortEffect b r := by
  by_cases hc : b.Count = 0
  · rw [SortEffect, h, if_pos hc]
    have hnil : b.Vals = [] := by
      simpa [Bucket.Count, List.length_eq_zero] using hc
    exact ⟨rfl, rfl, .refl _, by simp [hnil], fun hne => absurd hnil hne⟩
  · rw [SortEffect, h, if_neg hc]
    refine ⟨Sort_Sum b, Sort_id b, Sort_perm b, Sort_sorted b, ?_⟩
    intro hne
    have hcount : ¬(b.Sort).Count = 0 := by rw [Sort_Count]; exact hc
    have hnil2 : (b.Sort).Vals ≠ [] := by
      intro h0
      exact hcount (by simp [Bucket.Count, h0])
    have hlast : ((b.Sort).Last).1 = (b.Sort).Vals.getD ((b.Sort).Vals.length - 1) 0 := by
      unfold Bucket.Last
      rw [if_neg hcount]
      rfl
    constructor
    · rw [hlast]
      exact (Sort_perm b).mem_iff.mp (getD_last_mem hnil2)
    · intro x hx
      rw [hlast]
      exact sorted_le_getD_last (Sort_sorted b) ((Sort_perm b).mem_iff.mpr hx)

/-- C10: each of `Min`, `Median`, `Perc95`, `Perc99`, `Max` keeps `Sum`
and the multiset of `Vals` but sorts `Vals` ascending in place, after
which `Last()` returns the maximum of `Vals`. -/
theorem c10_sort_in_place (b : Bucket) :
    SortEffect b b.Min ∧ SortEffect b b.Median ∧ SortEffect b b.Perc95 ∧
    SortEffect b b.Perc99 ∧ SortEffect b b.Max :=
  ⟨sortEffect_of_snd b _ (Min_snd b), sortEffect_of_snd b _ (Median_snd b),
   sortEffect_of_snd b _ (Perc95_snd b), sortEffect_of_snd b _ (Perc99_snd b),
   sortEffect_of_snd b _ (Max_snd b)⟩

/-- Witness for C10 at the three-sample bucket. -/
theorem c10_sort_in_place_witness :
    bEx3.Vals ≠ [] ∧
    (((bEx3.Min).2.Last).1 ∈ bEx3.Vals ∧ ∀ x ∈ bEx3.Vals, x ≤ ((bEx3.Min).2.Last).1) :=
  ⟨by decide, ((c10_sort_in_place bEx3).1).2.2.2.2 (by decide)⟩

/-! ## C3 -/

/-- C3: the parser's emitted buckets carry `Vals = [v]` but `Sum = 0`,
not `Sum = v` - the Go struct literal
`&bucket.Bucket{Id: id, Vals: []float64{val}}` leaves `Sum` at its zero
value, so the emitted bucket violates `Sum = Σ Vals` for every `v ≠ 0`:
evaluated here on a `count#x=5` tuple and a `measure#q=7` tuple. -/
theorem c3_parser_sum_zero :
    handleCounters idEx { name := "count#x", float64 := some 5 } =
      some { id := { idEx with type := "counter" }, Vals := [5], Sum := 0 } ∧
    handlMeasurements idEx { name := "measure#q", float64 := some 7 } =
      some { id := { idEx with type := "measurement" }, Vals := [7], Sum := 0 } ∧
    ([(5 : ℚ)]).sum = 5 ∧ (0 : ℚ) ≠ 5 := by
  refine ⟨by decide, by decide, by simp, by norm_num⟩

/-! ## C5 -/

theorem retryFrom_all_fail (attempt : ℕ → Option String) (numRetries : ℕ)
    (e : ℕ → String) (hfail : ∀ i, i ≤ numRetries → attempt i = some (e i)) :
    ∀ k i, i + k = numRetries →
      retryFrom attempt numRetries i (k + 1) = (k + 1, some (e numRetries)) := by
  intro k
  induction k with
  | zero =>
    intro i hi
    have hi0 : i = numRetries := by omega
    subst hi0
    unfold retryFrom
    rw [hfail i le_rfl]
    simp
  | succ k ih =>
    intro i hi
    have hile : i ≤ numRetries := by omega
    have hine : ¬i = numRetries := by omega
    unfold retryFrom
    rw [hfail i hile]
    simp only [hine, if_false]
    rw [ih (i + 1) (by omega)]

/-- C5: when every POST attempt fails (attempt `i` yielding error `e i`)
and the retry count is `r`, `postWithRetry` makes exactly `r + 1` POSTs
and returns the last error, and the outlet loop drops exactly that one
batch - later batches are unaffected. -/
theorem c5_retry_then_drop (r : ℕ) (attempt : ℕ → Option String)
    (e : ℕ → String) (hfail : ∀ i, i ≤ r → attempt i = some (e i)) :
    postWithRetry attempt r = (r + 1, some (e r)) ∧
    (∀ rest, outletDropCount r (attempt :: rest) = 1 + outletDropCount r rest) := by
  have h : retryFrom attempt r 0 (r + 1) = (r + 1, some (e r)) :=
    retryFrom_all_fail attempt r e hfail r 0 (by omega)
  constructor
  · unfold postWithRetry
    exact h
  · intro rest
    have h2 : postWithRetry attempt r = (r + 1, some (e r)) := h
    show (match (postWithRetry attempt r).2 with
          | some _ => 1
          | none => 0) + outletDropCount r rest = 1 + outletDropCount r rest
    rw [h2]

/-- Witness for C5 at `outlet-retry = 2` with a constant 500-class
failure: three POSTs, the final error returned. -/
theorem c5_retry_then_drop_witness :
    (∀ i, i ≤ 2 →
      (fun _ : ℕ => some "error=failed-request code=500") i =
        some ((fun _ : ℕ => "error=failed-request code=500") i)) ∧
    postWithRetry (fun _ : ℕ => some "error=failed-request code=500") 2 =
      (3, some "error=failed-request code=500") :=
  ⟨fun _ _ => rfl,
   (c5_retry_then_drop 2 (fun _ => some "error=failed-request code=500")
      (fun _ => "error=failed-request code=500") (fun _ _ => rfl)).1⟩

/-! ## C6 -/

theorem addRegister_eq (reg : Id → Option Bucket) (b : Bucket) (k : Id) :
    addRegister reg b k =
      if k = b.id then
        (match reg b.id with
         | none => some b
         | some existing => some (existing.Merge b))
      else reg k := rfl

/-- A counter identity for the register counterexample. -/
def idCtr : Id := { idEx with type := "counter" }

/-- A counter-style bucket (`Sum` populated, `Vals` empty). -/
def bC1 : Bucket := { id := idCtr, Vals := [], Sum := 5 }

/-- A second counter-style bucket with the same `Id`. -/
def bC2 : Bucket := { id := idCtr, Vals := [], Sum := 0 }

/-- C6, counterexample: for two equal-`Id` buckets whose `Sum` is not
`Σ Vals` (counter-style), the register's post-state depends on the
insertion order, because `Merge` reads only the other bucket's `Vals`:
inserting `bC1` then `bC2` keeps `Sum = 5`, the other order keeps
`Sum = 0`, so the post-state does not always equal their `Merge`. -/
theorem c6_register_counterexample :
    (addRegister (addRegister emptyRegister bC1) bC2) bC1.id = some (bC1.Merge bC2) ∧
    (addRegister (addRegister emptyRegister bC2) bC1) bC1.id = some (bC2.Merge bC1) ∧
    (bC1.Merge bC2).Sum = 5 ∧
    (bC2.Merge bC1).Sum = 0 ∧
    (addRegister (addRegister emptyRegister bC2) bC1) bC1.id ≠
      (addRegister (addRegister emptyRegister bC1) bC2) bC1.id := by
  refine ⟨by decide, by decide, by decide, by decide, by decide⟩

/-- C6 as amended: for two buckets with equal `Id`, both satisfying the
invariant `Sum = Σ Vals` (as every parser-emitted bucket is meant to),
adding them to the register in either order around an absent key yields
entries whose `id`, `Sum` and multiset of `Vals` agree with their
`Merge`; the first order literally stores `b1.Merge b2`. -/
theorem c6_register_merge (b1 b2 : Bucket) (reg : Id → Option Bucket)
    (hid : b1.id = b2.id) (habsent : reg b1.id = none)
    (h1 : b1.Sum = b1.Vals.sum) (h2 : b2.Sum = b2.Vals.sum) :
    addRegister (addRegister reg b1) b2 b1.id = some (b1.Merge b2) ∧
    ∃ m, addRegister (addRegister reg b2) b1 b1.id = some m ∧
      m.id = (b1.Merge b2).id ∧ m.Sum = (b1.Merge b2).Sum ∧
      List.Perm m.Vals (b1.Merge b2).Vals := by
  have hb2id : b2.id = b1.id := hid.symm
  have e1 : (addRegister reg b1) b2.id = some b1 := by
    rw [addRegister_eq, if_pos hb2id, habsent]
  have e2 : addRegister (addRegister reg b1) b2 b1.id = some (b1.Merge b2) := by
    rw [addRegister_eq, if_pos hid, e1]
  have e3 : (addRegister reg b2) b1.id = some b2 := by
    rw [addRegister_eq, if_pos hid, hb2id, habsent]
  have e4 : addRegister (addRegister reg b2) b1 b1.id = some (b2.Merge b1) := by
    rw [addRegister_eq, if_pos rfl, e3]
  refine ⟨e2, b2.Merge b1, e4, ?_, ?_, ?_⟩
  · rw [Merge_id, Merge_id, hid]
  · rw [Merge_Sum, Merge_Sum, h1, h2]
    ring
  · rw [Merge_Vals, Merge_Vals]
    exact List.perm_append_comm

/-- A well-formed bucket (`Sum = Σ Vals`) for the C6 witness. -/
def bW1 : Bucket := { id := idCtr, Vals := [3], Sum := 3 }

/-- A second well-formed bucket with the same `Id`. -/
def bW2 : Bucket := { id := idCtr, Vals := [4], Sum := 4 }

/-- Witness for the amended C6 at two well-formed buckets. -/
theorem c6_register_merge_witness :
    (bW1.id = bW2.id ∧ emptyRegister bW1.id = none ∧
      bW1.Sum = bW1.Vals.sum ∧ bW2.Sum = bW2.Vals.sum) ∧
    addRegister (addRegister emptyRegister bW1) bW2 bW1.id = some (bW1.Merge bW2) :=
  ⟨⟨rfl, rfl, by simp [bW1], by simp [bW2]⟩,
   (c6_register_merge bW1 bW2 emptyRegister rfl rfl (by simp [bW1]) (by simp [bW2])).1⟩

/-! ## C7 -/

/-- The invariant maintained on `groupByUser`'s pending map: every
pending slice is non-empty and strictly below the batch cap. -/
def PendingInv (cap : ℕ) (m : List (String × List DataDogMetric)) : Prop :=
  ∀ e ∈ m, e.2 ≠ [] ∧ e.2.length < cap

theorem findEntry_mem {usr : String} {v : List DataDogMetric} :
    ∀ {m : List (String × List DataDogMetric)},
      findEntry m usr = some v → (usr, v) ∈ m := by
  intro m
  induction m with
  | nil => intro h; simp [findEntry] at h
  | cons e rest ih =>
    obtain ⟨k, w⟩ := e
    intro h
    rw [findEntry] at h
    by_cases hk : k = usr
    · rw [if_pos hk] at h
      subst hk
      injection h with h
      subst h
      exact List.mem_cons_self _ _
    · rw [if_neg hk] at h
      exact List.mem_cons_of_mem _ (ih h)

theorem mem_setEntry {usr : String} {v : List DataDogMetric}
    {e : String × List DataDogMetric} :
    ∀ {m : List (String × List DataDogMetric)},
      e ∈ setEntry m usr v → e = (usr, v) ∨ e ∈ m := by
  intro m
  induction m with
  | nil =>
    intro h
    simp [setEntry] at h
    exact Or.inl h
  | cons p rest ih =>
    obtain ⟨k, w⟩ := p
    intro h
    rw [setEntry] at h
    by_cases hk : k = usr
    · rw [if_pos hk] at h
      rcases List.mem_cons.mp h with h | h
      · exact Or.inl h
      · exact Or.inr (List.mem_cons_of_mem _ h)
    · rw [if_neg hk] at h
      rcases List.mem_cons.mp h with h | h
      · exact Or.inr (h ▸ List.mem_cons_self _ _)
      · rcases ih h with h | h
        · exact Or.inl h
        · exact Or.inr (List.mem_cons_of_mem _ h)

theorem mem_eraseEntry {usr : String} {e : String × List DataDogMetric} :
    ∀ {m : List (String × List DataDogMetric)},
      e ∈ eraseEntry m usr → e ∈ m := by
  intro m
  induction m with
  | nil => intro h; simp [eraseEntry] at h
  | cons p rest ih =>
    obtain ⟨k, w⟩ := p
    intro h
    rw [eraseEntry] at h
    by_cases hk : k = usr
    · rw [if_pos hk] at h
      exact List.mem_cons_of_mem _ (ih h)
    · rw [if_neg hk] at h
      rcases List.mem_cons.mp h with h | h
      · exact h ▸ List.mem_cons_self _ _
      · exact List.mem_cons_of_mem _ (ih h)

theorem findEntry_eraseEntry (usr : String) :
    ∀ m : List (String × List DataDogMetric),
      findEntry (eraseEntry m usr) usr = none := by
  intro m
  induction m with
  | nil => rfl
  | cons p rest ih =>
    obtain ⟨k, w⟩ := p
    rw [eraseEntry]
    by_cases hk : k = usr
    · rw [if_pos hk]
      exact ih
    · rw [if_neg hk, findEntry, if_neg hk]
      exact ih

theorem groupByUserArrive_spec {cap : ℕ} (hcap : 1 ≤ cap)
    {m : List (String × List DataDogMetric)} (hinv : PendingInv cap m)
    (p : DataDogMetric) :
    PendingInv cap (groupByUserArrive cap m p).1 ∧
    (∀ batch ∈ (groupByUserArrive cap m p).2, batch ≠ [] ∧ batch.length = cap) ∧
    ((groupByUserArrive cap m p).2 ≠ [] →
      findEntry (groupByUserArrive cap m p).1 p.Auth = none) := by
  cases hfe : findEntry m p.Auth with
  | none =>
    simp only [groupByUserArrive, hfe]
    by_cases hlen : ([p] : List DataDogMetric).length = cap
    · rw [if_pos hlen]
      refine ⟨fun e he => hinv e (mem_eraseEntry he), ?_, ?_⟩
      · intro batch hb
        rcases List.mem_singleton.mp hb with rfl
        exact ⟨by simp, hlen⟩
      · intro _
        exact findEntry_eraseEntry p.Auth m
    · rw [if_neg hlen]
      refine ⟨?_, by simp, by simp⟩
      intro e he
      rcases mem_setEntry he with rfl | hm
      · refine ⟨by simp, ?_⟩
        have h1 : ((p.Auth, [p]) : String × List DataDogMetric).2 = [p] := rfl
        rw [h1]
        have h2 : ([p] : List DataDogMetric).length = 1 := rfl
        omega
      · exact hinv e hm
  | some old =>
    have hold := hinv _ (findEntry_mem hfe)
    simp only [groupByUserArrive, hfe]
    by_cases hlen : (old ++ [p]).length = cap
    · rw [if_pos hlen]
      refine ⟨fun e he => hinv e (mem_eraseEntry he), ?_, ?_⟩
      · intro batch hb
        rcases List.mem_singleton.mp hb with rfl
        exact ⟨by simp, hlen⟩
      · intro _
        exact findEntry_eraseEntry p.Auth m
    · rw [if_neg hlen]
      refine ⟨?_, by simp, by simp⟩
      intro e he
      rcases mem_setEntry he with rfl | hm
      · refine ⟨by simp, ?_⟩
        have h1 : ((p.Auth, old ++ [p]) : String × List DataDogMetric).2 = old ++ [p] := rfl
        rw [h1]
        have h2 : (old ++ [p]).length = old.length + 1 := by simp
        have h3 : old.length < cap := hold.2
        omega
      · exact hinv e hm

theorem groupByUserTick_spec {cap : ℕ}
    {m : List (String × List DataDogMetric)} (hinv : PendingInv cap m) :
    PendingInv cap (groupByUserTick m).1 ∧
    ∀ batch ∈ (groupByUserTick m).2, batch ≠ [] ∧ batch.length ≤ cap := by
  constructor
  · intro e he
    simp [groupByUserTick] at he
  · intro batch hb
    simp only [groupByUserTick, List.mem_map] at hb
    obtain ⟨e, he, rfl⟩ := hb
    have hmem := List.mem_of_mem_filter he
    exact ⟨(hinv e hmem).1, Nat.le_of_lt (hinv e hmem).2⟩

theorem groupByUserRun_batches {cap : ℕ} (hcap : 1 ≤ cap) :
    ∀ (events : List GroupEvent) (m : List (String × List DataDogMetric)),
      PendingInv cap m →
      ∀ batch ∈ (groupByUserRun cap m events).2, batch ≠ [] ∧ batch.length ≤ cap := by
  intro events
  induction events with
  | nil =>
    intro m _ batch hb
    simp [groupByUserRun] at hb
  | cons e es ih =>
    intro m hinv batch hb
    simp only [groupByUserRun] at hb
    rcases List.mem_append.mp hb with h | h
    · cases e with
      | arrival p =>
        have := (groupByUserArrive_spec hcap hinv p).2.1 batch h
        exact ⟨this.1, Nat.le_of_eq this.2⟩
      | tick =>
        exact (groupByUserTick_spec hinv).2 batch h
    · cases e with
      | arrival p =>
        exact ih _ (groupByUserArrive_spec hcap hinv p).1 batch h
      | tick =>
        exact ih _ (groupByUserTick_spec hinv).1 batch h

/-- A conversion payload for the batching scenario; everything but the
name is fixed, `Auth = "A"` for all of them. -/
def pEx (nm : String) : DataDogMetric :=
  { Metric := nm, Host := "", Tags := [], type := "gauge", Auth := "A",
    Points := [] }

/-- C7: starting from the empty pending map, every batch `groupByUser`
emits to the outbox is non-empty and at most the batch cap long; a
batch emitted on arrival has exactly the cap length and clears the
tenant's pending entry; the tick emits exactly the non-empty pending
slices and clears the map; and with cap 3, four same-`Auth` arrivals
followed by the tick yield one batch of 3 then one batch of 1. -/
theorem c7_batching_invariant (cap : ℕ) (hcap : 1 ≤ cap) :
    (∀ (events : List GroupEvent) (batch : List DataDogMetric),
      batch ∈ (groupByUserRun cap [] events).2 →
      batch ≠ [] ∧ batch.length ≤ cap) ∧
    (∀ (m : List (String × List DataDogMetric)) (p : DataDogMetric),
      PendingInv cap m →
      (∀ batch ∈ (groupByUserArrive cap m p).2, batch.length = cap) ∧
      ((groupByUserArrive cap m p).2 ≠ [] →
        findEntry (groupByUserArrive cap m p).1 p.Auth = none)) ∧
    (∀ m : List (String × List DataDogMetric),
      (groupByUserTick m).1 = [] ∧
      (groupByUserTick m).2 = (m.filter fun e => 0 < e.2.length).map (·.2)) ∧
    groupByUserRun 3 []
      [.arrival (pEx "m1"), .arrival (pEx "m2"), .arrival (pEx "m3"),
       .arrival (pEx "m4"), .tick] =
      ([], [[pEx "m1", pEx "m2", pEx "m3"], [pEx "m4"]]) := by
  refine ⟨?_, ?_, ?_, ?_⟩
  · intro events batch hb
    exact groupByUserRun_batches hcap events [] (by intro e he; simp at he) batch hb
  · intro m p hinv
    exact ⟨fun batch hb => ((groupByUserArrive_spec hcap hinv p).2.1 batch hb).2,
      (groupByUserArrive_spec hcap hinv p).2.2⟩
  · intro m
    exact ⟨rfl, rfl⟩
  · decide

/-- Witness for C7 at cap 3. -/
theorem c7_batching_invariant_witness :
    1 ≤ 3 ∧
    groupByUserRun 3 []
      [.arrival (pEx "m1"), .arrival (pEx "m2"), .arrival (pEx "m3"),
       .arrival (pEx "m4"), .tick] =
      ([], [[pEx "m1", pEx "m2", pEx "m3"], [pEx "m4"]]) :=
  ⟨by decide, (c7_batching_invariant 3 (by decide)).2.2.2⟩

/-! ## C8 -/

/-- An empty bucket (no values appended). -/
def bEmpty : Bucket := { id := idEx, Vals := [], Sum := 0 }

/-- C8: on a bucket with empty `Vals` every statistics function returns
0 without indexing, and for `Count ≥ 1` every index the array-indexing
branches use is strictly below the (sorted) array's length `n` -
`Median` at `⌊n/2⌋`, `Perc95` at `⌊0.95·n⌋`, `Perc99` at `⌊0.99·n⌋`,
`Max`/`Last` at `n - 1`, `Min` at `0`. -/
theorem c8_empty_returns_zero :
    (∀ b : Bucket, b.Vals = [] →
      b.Mean = 0 ∧ (b.Min).1 = 0 ∧ (b.Max).1 = 0 ∧ (b.Median).1 = 0 ∧
      (b.Perc95).1 = 0 ∧ (b.Perc99).1 = 0 ∧ (b.Last).1 = 0) ∧
    (∀ n : ℕ, 1 ≤ n →
      medianPos n < n ∧ perc95Pos n < n ∧ perc99Pos n < n ∧
      n - 1 < n ∧ 0 < n) := by
  constructor
  · intro b hb
    have hc : b.Count = 0 := by simp [Bucket.Count, hb]
    refine ⟨?_, ?_, ?_, ?_, ?_, ?_, ?_⟩ <;>
      simp [Bucket.Mean, Bucket.Min, Bucket.Max, Bucket.Median,
        Bucket.Perc95, Bucket.Perc99, Bucket.Last, hc]
  · intro n hn
    refine ⟨?_, perc95Pos_lt hn, perc99Pos_lt hn, by omega, by omega⟩
    rw [medianPos_eq]
    omega

/-- Witness for C8 at the empty bucket and `n = 10`. -/
theorem c8_empty_returns_zero_witness :
    (bEmpty.Vals = [] ∧ (bEmpty.Median).1 = 0) ∧
    (1 ≤ 10 ∧ medianPos 10 < 10) :=
  ⟨⟨rfl, (c8_empty_returns_zero.1 bEmpty rfl).2.2.2.1⟩,
   ⟨by decide, (c8_empty_returns_zero.2 10 (by decide)).1⟩⟩

/-! ## C4 -/

theorem Median_Sort_fst (b : Bucket) : ((b.Sort).Median).1 = (b.Median).1 := by
  rw [Median_fst, Median_fst, Sort_Count, Sort_Vals, insertionSort_idem]

theorem Perc95_Sort_fst (b : Bucket) : ((b.Sort).Perc95).1 = (b.Perc95).1 := by
  rw [Perc95_fst, Perc95_fst, Sort_Count, Sort_Vals, insertionSort_idem]

theorem Perc99_Sort_fst (b : Bucket) : ((b.Sort).Perc99).1 = (b.Perc99).1 := by
  rw [Perc99_fst, Perc99_fst, Sort_Count, Sort_Vals, insertionSort_idem]

theorem Max_Sort_fst (b : Bucket) : ((b.Sort).Max).1 = (b.Max).1 := by
  rw [Max_fst, Max_fst, Sort_Count, Sort_Vals, insertionSort_idem]

/-- A statistics call on the canonical post-state (`b` untouched when
empty, `b.Sort` otherwise) leaves it fixed. -/
theorem stat_snd_canonical (b : Bucket) (f : Bucket → ℚ × Bucket)
    (hf : ∀ c, (f c).2 = if c.Count = 0 then c else c.Sort) :
    (f (if b.Count = 0 then b else b.Sort)).2 = if b.Count = 0 then b else b.Sort := by
  by_cases hc : b.Count = 0
  · simp [hc, hf]
  · simp [hc, hf, Sort_Count, Sort_Sort]

theorem canonical_Sum (b : Bucket) :
    (if b.Count = 0 then b else b.Sort).Sum = b.Sum := by
  by_cases hc : b.Count = 0 <;> simp [hc, Sort_Sum]

theorem canonical_Count (b : Bucket) :
    (if b.Count = 0 then b else b.Sort).Count = b.Count := by
  by_cases hc : b.Count = 0 <;> simp [hc, Sort_Count]

theorem canonical_Median_fst (b : Bucket) :
    ((if b.Count = 0 then b else b.Sort).Median).1 = (b.Median).1 := by
  by_cases hc : b.Count = 0
  · rw [if_pos hc]
  · rw [if_neg hc, Median_Sort_fst]

theorem canonical_Perc95_fst (b : Bucket) :
    ((if b.Count = 0 then b else b.Sort).Perc95).1 = (b.Perc95).1 := by
  by_cases hc : b.Count = 0
  · rw [if_pos hc]
  · rw [if_neg hc, Perc95_Sort_fst]

theorem canonical_Perc99_fst (b : Bucket) :
    ((if b.Count = 0 then b else b.Sort).Perc99).1 = (b.Perc99).1 := by
  by_cases hc : b.Count = 0
  · rw [if_pos hc]
  · rw [if_neg hc, Perc99_Sort_fst]

theorem canonical_Max_fst (b : Bucket) :
    ((if b.Count = 0 then b else b.Sort).Max).1 = (b.Max).1 := by
  by_cases hc : b.Count = 0
  · rw [if_pos hc]
  · rw [if_neg hc, Max_Sort_fst]

theorem ComplexMetric_snd (b : Bucket) :
    (b.ComplexMetric).2 = if b.Count = 0 then b else b.Sort := by
  show ((b.Min).2.Max).2 = _
  rw [Min_snd]
  exact stat_snd_canonical b Bucket.Max Max_snd

/-- The complex record packs the bucket's own `Min`, `Max`, `Sum` and
`Count` (the in-place sorting between the reads does not change them). -/
theorem ComplexMetric_fst (b : Bucket) :
    (b.ComplexMetric).1 =
      { Attr := some { Min := 0, Units := b.id.Units }, Name := b.id.Name,
        Source := b.id.Source, Time := b.id.Time, Auth := b.id.Auth,
        Min := some (b.Min).1, Max := some (b.Max).1, Sum := some b.Sum,
        Count := some (b.Count : ℤ), Val := none, IsComplex := true } := by
  have hpost : ((b.Min).2.Max).2 = if b.Count = 0 then b else b.Sort := by
    rw [Min_snd]
    exact stat_snd_canonical b Bucket.Max Max_snd
  have hmax : ((b.Min).2.Max).1 = (b.Max).1 := by
    rw [Min_snd]
    exact canonical_Max_fst b
  show ({ Attr := some { Min := 0, Units := b.id.Units }, Name := b.id.Name,
          Source := b.id.Source, Time := b.id.Time, Auth := b.id.Auth,
          Min := some (b.Min).1, Max := some ((b.Min).2.Max).1,
          Sum := some ((b.Min).2.Max).2.Sum,
          Count := some (((b.Min).2.Max).2.Count : ℤ), Val := none,
          IsComplex := true } : L2met.Metric) = _
  rw [hmax, hpost, canonical_Sum, canonical_Count]

/-- `EmitMeasurements` in terms of the bucket's own statistics. -/
theorem EmitMeasurements_eq (b : Bucket) :
    b.EmitMeasurements =
      ([(b.ComplexMetric).1,
        b.Metric ".median" (b.Median).1,
        b.Metric ".perc95" (b.Perc95).1,
        b.Metric ".perc99" (b.Perc99).1],
       if b.Count = 0 then b else b.Sort) := by
  have hc := ComplexMetric_snd b
  have h2 : ((b.ComplexMetric).2.Median).2 = if b.Count = 0 then b else b.Sort := by
    rw [hc]
    exact stat_snd_canonical b Bucket.Median Median_snd
  have h3 : (((b.ComplexMetric).2.Median).2.Perc95).2 =
      if b.Count = 0 then b else b.Sort := by
    rw [h2]
    exact stat_snd_canonical b Bucket.Perc95 Perc95_snd
  have hmed : ((b.ComplexMetric).2.Median).1 = (b.Median).1 := by
    rw [hc]
    exact canonical_Median_fst b
  have hp95 : (((b.ComplexMetric).2.Median).2.Perc95).1 = (b.Perc95).1 := by
    rw [h2]
    exact canonical_Perc95_fst b
  have hp99 : ((((b.ComplexMetric).2.Median).2.Perc95).2.Perc99).1 = (b.Perc99).1 := by
    rw [h3]
    exact canonical_Perc99_fst b
  have hfin : ((((b.ComplexMetric).2.Median).2.Perc95).2.Perc99).2 =
      if b.Count = 0 then b else b.Sort := by
    rw [h3]
    exact stat_snd_canonical b Bucket.Perc99 Perc99_snd
  show ([(b.ComplexMetric).1,
         b.Metric ".median" ((b.ComplexMetric).2.Median).1,
         b.Metric ".perc95" (((b.ComplexMetric).2.Median).2.Perc95).1,
         b.Metric ".perc99" ((((b.ComplexMetric).2.Median).2.Perc95).2.Perc99).1],
        ((((b.ComplexMetric).2.Median).2.Perc95).2.Perc99).2) = _
  rw [hmed, hp95, hp99, hfin]

/-- Evaluation of `Metrics()` on the ten-sample measurement bucket:
the complex record plus the three percentile records of the spec's
complex-emission scenario. -/
theorem metricsExampleTen :
    bEx10.Metrics = some
      ([{ Attr := some { Min := 0, Units := "ms" }, Name := "db.latency",
          Source := "", Time := 0, Auth := "X", Min := some 1, Max := some 10,
          Sum := some 55, Count := some 10, Val := none, IsComplex := true },
        { Attr := some { Min := 0, Units := "ms" }, Name := "db.latency.median",
          Source := "", Time := 0, Auth := "X", Val := some 6, Count := none,
          Sum := none, Max := none, Min := none, IsComplex := false },
        { Attr := some { Min := 0, Units := "ms" }, Name := "db.latency.perc95",
          Source := "", Time := 0, Auth := "X", Val := some 10, Count := none,
          Sum := none, Max := none, Min := none, IsComplex := false },
        { Attr := some { Min := 0, Units := "ms" }, Name := "db.latency.perc99",
          Source := "", Time := 0, Auth := "X", Val := some 10, Count := none,
          Sum := none, Max := none, Min := none, IsComplex := false }],
       bEx10) := by
  have hsort : bEx10.Sort = bEx10 := Sort_of_sorted (by decide)
  have hc : ¬bEx10.Count = 0 := by decide
  have hmin : bEx10.Min = (1, bEx10) := by
    unfold Bucket.Min
    rw [if_neg hc, hsort]
    rfl
  have hmax : bEx10.Max = (10, bEx10) := by
    unfold Bucket.Max
    rw [if_neg hc, hsort]
    rfl
  have hmed : bEx10.Median = (6, bEx10) := by
    unfold Bucket.Median
    rw [if_neg hc, hsort]
    show (bEx10.Vals.getD (medianPos bEx10.Count) 0, bEx10) = (6, bEx10)
    rw [medianPos_eq]
    rfl
  have hpos95 : perc95Pos bEx10.Count = 9 := by
    show perc95Pos 10 = 9
    unfold perc95Pos
    norm_num
    decide
  have hpos99 : perc99Pos bEx10.Count = 9 := by
    show perc99Pos 10 = 9
    unfold perc99Pos
    norm_num
    decide
  have hp95 : bEx10.Perc95 = (10, bEx10) := by
    unfold Bucket.Perc95
    rw [if_neg hc, hsort]
    show (bEx10.Vals.getD (perc95Pos bEx10.Count) 0, bEx10) = (10, bEx10)
    rw [hpos95]
    rfl
  have hp99 : bEx10.Perc99 = (10, bEx10) := by
    unfold Bucket.Perc99
    rw [if_neg hc, hsort]
    show (bEx10.Vals.getD (perc99Pos bEx10.Count) 0, bEx10) = (10, bEx10)
    rw [hpos99]
    rfl
  have hcm : bEx10.ComplexMetric =
      ({ Attr := some { Min := 0, Units := "ms" }, Name := "db.latency",
         Source := "", Time := 0, Auth := "X", Min := some 1, Max := some 10,
         Sum := some 55, Count := some 10, Val := none, IsComplex := true },
       bEx10) := by decide
  have hemit : bEx10.Metrics = some bEx10.EmitMeasurements := by
    unfold Bucket.Metrics
    rw [if_pos (show bEx10.id.type = "measurement" from rfl)]
  rw [hemit]
  show some
    ([(bEx10.ComplexMetric).1,
      bEx10.Metric ".median" ((bEx10.ComplexMetric).2.Median).1,
      bEx10.Metric ".perc95" (((bEx10.ComplexMetric).2.Median).2.Perc95).1,
      bEx10.Metric ".perc99"
        ((((bEx10.ComplexMetric).2.Median).2.Perc95).2.Perc99).1],
     ((((bEx10.ComplexMetric).2.Median).2.Perc95).2.Perc99).2) = _
  rw [hcm, hmed, hp95, hp99]
  decide

/-- C4: `Metrics()` is determined by `b.Id.Type` alone - a measurement
bucket yields the complex record (with `Count`, `Sum`, `Min`, `Max`)
followed by the `.median`/`.perc95`/`.perc99` single-value records (4
metrics); a counter bucket yields one single-value metric carrying
`b.Sum`; a sample bucket yields one single-value metric carrying the
last element of `b.Vals`; and the ten-sample example emits
`{count 10, sum 55, min 1, max 10}`, `.median = 6`, `.perc95 = 10`,
`.perc99 = 10`. -/
theorem c4_metrics_by_type (b : Bucket) :
    (b.id.type = "measurement" →
      ∃ mn mx med p95 p99 b',
        b.Metrics = some
          ([{ Attr := some { Min := 0, Units := b.id.Units },
              Name := b.id.Name, Source := b.id.Source, Time := b.id.Time,
              Auth := b.id.Auth, Min := some mn, Max := some mx,
              Sum := some b.Sum, Count := some (b.Count : ℤ), Val := none,
              IsComplex := true },
            b.Metric ".median" med, b.Metric ".perc95" p95,
            b.Metric ".perc99" p99], b') ∧
        mn = (b.Min).1 ∧ mx = (b.Max).1 ∧ med = (b.Median).1 ∧
        p95 = (b.Perc95).1 ∧ p99 = (b.Perc99).1) ∧
    (b.id.type = "counter" →
      ∃ m, b.Metrics = some ([m], b) ∧ m.Val = some b.Sum ∧
        m.IsComplex = false) ∧
    (b.id.type = "sample" →
      ∃ m, b.Metrics = some ([m], b) ∧ m.Val = some (b.Last).1 ∧
        m.IsComplex = false ∧
        (∀ h : b.Vals ≠ [], (b.Last).1 = b.Vals.getLast h)) ∧
    bEx10.Metrics = some
      ([{ Attr := some { Min := 0, Units := "ms" }, Name := "db.latency",
          Source := "", Time := 0, Auth := "X", Min := some 1, Max := some 10,
          Sum := some 55, Count := some 10, Val := none, IsComplex := true },
        { Attr := some { Min := 0, Units := "ms" }, Name := "db.latency.median",
          Source := "", Time := 0, Auth := "X", Val := some 6, Count := none,
          Sum := none, Max := none, Min := none, IsComplex := false },
        { Attr := some { Min := 0, Units := "ms" }, Name := "db.latency.perc95",
          Source := "", Time := 0, Auth := "X", Val := some 10, Count := none,
          Sum := none, Max := none, Min := none, IsComplex := false },
        { Attr := some { Min := 0, Units := "ms" }, Name := "db.latency.perc99",
          Source := "", Time := 0, Auth := "X", Val := some 10, Count := none,
          Sum := none, Max := none, Min := none, IsComplex := false }],
       bEx10) := by
  refine ⟨?_, ?_, ?_, metricsExampleTen⟩
  · intro ht
    refine ⟨(b.Min).1, (b.Max).1, (b.Median).1, (b.Perc95).1, (b.Perc99).1,
      if b.Count = 0 then b else b.Sort, ?_, rfl, rfl, rfl, rfl, rfl⟩
    unfold Bucket.Metrics
    rw [ht, if_pos rfl, EmitMeasurements_eq, ComplexMetric_fst]
  · intro ht
    refine ⟨b.Metric "" b.Sum, ?_, rfl, rfl⟩
    unfold Bucket.Metrics
    rw [ht, if_neg (by decide), if_pos rfl]
    rfl
  · intro ht
    refine ⟨b.Metric "" (b.Last).1, ?_, rfl, rfl, ?_⟩
    · unfold Bucket.Metrics
      rw [ht, if_neg (by decide), if_neg (by decide), if_pos rfl]
      show some ([b.Metric "" (b.Last).1], (b.Last).2) = _
      rw [Last_snd]
    · intro h
      have hcount : ¬b.Count = 0 := by
        simp only [Bucket.Count]
        simpa [List.length_eq_zero] using h
      unfold Bucket.Last
      rw [if_neg hcount]
      exact getD_last_eq_getLast h

/-- Witness for C4 at the ten-sample measurement bucket, a counter
bucket and a sample bucket. -/
theorem c4_metrics_by_type_witness :
    (bEx10.id.type = "measurement" ∧
      ∃ mn mx med p95 p99 b',
        bEx10.Metrics = some
          ([{ Attr := some { Min := 0, Units := bEx10.id.Units },
              Name := bEx10.id.Name, Source := bEx10.id.Source,
              Time := bEx10.id.Time, Auth := bEx10.id.Auth, Min := some mn,
              Max := some mx, Sum := some bEx10.Sum,
              Count := some (bEx10.Count : ℤ), Val := none,
              IsComplex := true },
            bEx10.Metric ".median" med, bEx10.Metric ".perc95" p95,
            bEx10.Metric ".perc99" p99], b') ∧
        mn = (bEx10.Min).1 ∧ mx = (bEx10.Max).1 ∧ med = (bEx10.Median).1 ∧
        p95 = (bEx10.Perc95).1 ∧ p99 = (bEx10.Perc99).1) ∧
    (bC1.id.type = "counter" ∧
      ∃ m, bC1.Metrics = some ([m], bC1) ∧ m.Val = some bC1.Sum ∧
        m.IsComplex = false) :=
  ⟨⟨rfl, (c4_metrics_by_type bEx10).1 rfl⟩,
   ⟨rfl, (c4_metrics_by_type bC1).2.1 rfl⟩⟩

end L2met
